import Mathlib

/-!
Shallow embedding of the `cardlib` package (files `src/cardlib/card.py` and
`src/cardlib/deck.py`) and verification of its specification claims.

Modelling conventions:
* A Python `list` becomes a Lean `List`; `Deck._cards` keeps the source's
  internal orientation: index 0 is the bottom card, the last element is the
  top card.  The user-facing top-to-bottom sequence is `Deck.seq`.
* Python exceptions become an `Except` result; the error value carries the
  deck state at the moment of the raise, so atomicity is expressible.
* Exception messages are represented by the enum `ErrMsg` (one constructor
  per distinct message string in the source).
* Randomness (`shuffle=True`, `position='random'`) is not modelled; every
  claim concerns the deterministic paths (`shuffle=False`, positions
  `'top'`/`'bottom'`).
-/

namespace Cardlib

/-- `Suit` enum from `card.py`. -/
inductive Suit
  | spades | hearts | diamonds | clubs | red | black
  deriving DecidableEq, Repr

/-- `Rank` enum from `card.py`. -/
inductive Rank
  | two | three | four | five | six | seven | eight | nine | ten
  | jack | queen | king | ace | joker
  deriving DecidableEq, Repr

/-- `Card` from `card.py`: an immutable rank/suit pair with structural
equality and hashing. -/
structure Card where
  rank : Rank
  suit : Suit
  deriving DecidableEq, Repr

/-- `DEFAULT_RANK_VALUES` from `deck.py`. -/
def DEFAULT_RANK_VALUES : List (Rank × Int) :=
  [(.two, 2), (.three, 3), (.four, 4), (.five, 5), (.six, 6),
   (.seven, 7), (.eight, 8), (.nine, 9), (.ten, 10),
   (.jack, 11), (.queen, 12), (.king, 13), (.ace, 14),
   (.joker, 15)]

/-- `ENGLISH_ALPH_ORDER` from `deck.py`. -/
def ENGLISH_ALPH_ORDER : List Suit :=
  [.clubs, .diamonds, .hearts, .spades, .black, .red]

/-- `UP_RANKS` from `deck.py`: ranks from A to K. -/
def UP_RANKS : List Rank :=
  [.ace, .two, .three, .four, .five, .six, .seven, .eight, .nine, .ten,
   .jack, .queen, .king]

/-- The distinct exception message strings raised in `deck.py`, one
constructor per message. -/
inductive ErrMsg
  | cannotDrawNegative   -- 'cannot draw a negative number of cards'
  | notEnoughToDraw      -- 'not enough cards left to draw'
  | numHandsAtLeastOne   -- 'num_hands must be at least 1'
  | cardsEachPositive    -- 'cards_each must be positive'
  | notEnoughToDeal      -- 'not enough cards left to deal'
  | nAtLeastTwo          -- 'n must be at least 2'
  | cardNotInDeck        -- '... is not in deck'
  deriving DecidableEq, Repr

/-- Python exception kinds raised by the modelled code. -/
inductive PyErr
  | valueError (msg : ErrMsg)
  | typeError
  | indexError
  | zeroDivisionError
  deriving DecidableEq, Repr

/-- The `Deck` state: the card container plus the rule configuration set in
`Deck.__init__`.  The derived `_suit_index` dictionary is recomputable from
`suitOrder` and is not consulted by any operation the claims mention, so it
is not stored. -/
structure Deck where
  /-- `self._cards`, ordered from bottom (index 0) to top (last). -/
  cards : List Card
  /-- `self.rank_values` as an association list. -/
  rankValues : List (Rank × Int)
  /-- `self.suit_order`; `none` models Python `None`. -/
  suitOrder : Option (List Suit)
  /-- `self.include_jokers`. -/
  includeJokers : Bool
  deriving DecidableEq, Repr

/-- The user-facing top-to-bottom card sequence: `deck[0]` is the top card,
i.e. the reverse of the internal `_cards` list. -/
def Deck.seq (d : Deck) : List Card :=
  d.cards.reverse

/-- The list `Deck._build_cards` assigns to `self._cards` (internally
bottom-to-top): Hearts A..K, Clubs A..K, Diamonds K..A, Spades K..A, then
the two jokers (black, red) if requested.  Note the method only performs
this assignment and falls off the end: it has no `return` statement, so
its RETURN VALUE is `None` (see `initCardsValue`).  This list is the deck
content after `Deck.reset`, which calls `_build_cards()` as a statement. -/
def buildCards (includeJokers : Bool) : List Card :=
  ((UP_RANKS.map fun r => Card.mk r .hearts) ++
   (UP_RANKS.map fun r => Card.mk r .clubs) ++
   (UP_RANKS.reverse.map fun r => Card.mk r .diamonds) ++
   (UP_RANKS.reverse.map fun r => Card.mk r .spades)) ++
  (if includeJokers then [Card.mk .joker .black, Card.mk .joker .red] else [])

/-- Python truthiness applied by `rank_values or DEFAULT_RANK_VALUES` in
`Deck.__init__` (reached with `None` or with an explicit mapping, which is
falsy exactly when empty). -/
def truthyRankValues : Option (List (Rank × Int)) → List (Rank × Int)
  | none => DEFAULT_RANK_VALUES
  | some m => if m.isEmpty then DEFAULT_RANK_VALUES else m

/-- The value line 70 of `Deck.__init__`,
`self._cards = [] if empty else self._build_cards()`, actually leaves in
`self._cards` (`none` models Python `None`): `[]` when `empty`; otherwise
the RETURN VALUE of `_build_cards()`, which assigns the card list to
`self._cards` internally but has no `return` statement — so the
constructor immediately overwrites that list with `None`, and every fresh
non-empty deck has `_cards = None` (see claim C1). -/
def initCardsValue (empty : Bool) : Option (List Card) :=
  if empty then some [] else none

/-- `Deck.__init__` with `shuffle=False` (the `shuffle=True` branch applies
`random.shuffle`, a nondeterministic permutation outside this model; every
claim concerns `shuffle=False`).  The rule fields are assigned as in the
source.  The `cards` field of this structure is a `List Card` and cannot
hold the Python `None` that `initCardsValue` records for a fresh
non-empty deck — a broken state on which every card operation raises
`TypeError` — so that state is collapsed to `[]` via `.getD []` here; no
theorem below evaluates a card operation on a non-empty `Deck.init` deck
through this structure (claim C1 uses the faithful `initCardsValue` /
`drawFromRef` model instead, and the other theorems reach `Deck.init`
only with `empty = true` or read only the rule fields). -/
def Deck.init (includeJokers : Bool) (rankValues : Option (List (Rank × Int)))
    (suitOrder : Option (List Suit)) (empty : Bool) : Deck :=
  { cards := (initCardsValue empty).getD []
    rankValues := truthyRankValues rankValues
    suitOrder := suitOrder
    includeJokers := includeJokers }

/-- `Deck.reset` with `shuffle=False`: calls `self._build_cards()` as a
STATEMENT (unlike `__init__`, which uses its `None` return value), so
here `self._cards` really becomes the built list. -/
def Deck.reset (d : Deck) : Deck :=
  { d with cards := buildCards d.includeJokers }

/-- `Deck.from_cards` with `shuffle=False`: build a deck over the given
card list; with `_no_copy=True` the list is taken as already being in
internal (bottom-to-top) order, otherwise it is read as top-to-bottom and
reversed into internal order. -/
def Deck.fromCards (cs : List Card) (includeJokers : Bool)
    (rankValues : Option (List (Rank × Int))) (suitOrder : Option (List Suit))
    (noCopy : Bool) : Deck :=
  { Deck.init includeJokers rankValues suitOrder true with
    cards := if noCopy then cs else cs.reverse }

/-- `Deck.copy`: `new_cards` is `deepcopy(self._cards)` when `deep` else
`self._cards`; `Card` is an immutable value, so both give the same card
values here.  The list is then handed to `Deck.from_cards` with the deck's
own rule configuration (and `_no_copy` left at its default `False`). -/
def Deck.copy (d : Deck) (deep : Bool) : Deck :=
  let newCards := if deep then d.cards else d.cards
  Deck.fromCards newCards d.includeJokers (some d.rankValues) d.suitOrder false

/-- `Deck.value`: `self.rank_values.get(card.rank, 0)`. -/
def Deck.value (d : Deck) (c : Card) : Int :=
  match d.rankValues.lookup c.rank with
  | some v => v
  | none => 0

/-- The loop `[self._cards.pop() for _ in range(k)]`: pop the last (top)
element `k` times, returning the popped cards in pop order and the
remaining list.  The `none` branch (pop from an empty list) is unreachable
at the call site, where `k` is at most the list length. -/
def popLoop : Nat → List Card → List Card × List Card
  | 0, cs => ([], cs)
  | k + 1, cs =>
    match cs.getLast? with
    | none => ([], cs)
    | some c =>
      let r := popLoop k cs.dropLast
      (c :: r.1, r.2)

/-- `Deck.draw`: errors carry the deck state at the raise point (in the
source both raises occur before any mutation). -/
def Deck.draw (d : Deck) (n : Int) (strict : Bool) :
    Except (PyErr × Deck) (List Card × Deck) :=
  if n < 0 then
    .error (.valueError .cannotDrawNegative, d)
  else if strict = true ∧ (d.cards.length : Int) < n then
    .error (.valueError .notEnoughToDraw, d)
  else
    let toDraw := min n.toNat d.cards.length
    let r := popLoop toDraw d.cards
    .ok (r.1, { d with cards := r.2 })

/-- `Deck.draw` executed on the raw `self._cards` reference, which may be
the `None` a fresh non-empty `__init__` leaves behind.  The `n < 0` check
comes first and touches nothing; after it, the method's first use of
`self._cards` — `len(self._cards)` in the strict check, or in
`min(n, len(self._cards))` when `strict` is false and the `and`
short-circuits — raises `TypeError` when the reference is `None`.  On an
actual list the body is that of `Deck.draw`; the returned pair is
(drawn cards, remaining `_cards` list). -/
def drawFromRef (ref : Option (List Card)) (n : Int) (strict : Bool) :
    Except PyErr (List Card × List Card) :=
  if n < 0 then .error (.valueError .cannotDrawNegative)
  else
    match ref with
    | none => .error .typeError
    | some cs =>
      if strict = true ∧ (cs.length : Int) < n then
        .error (.valueError .notEnoughToDraw)
      else
        let r := popLoop (min n.toNat cs.length) cs
        .ok (r.1, r.2)

/-- One round of `Deck.deal`'s inner loop `for j in range(num_hands)`:
walk the hands in order, and for each hand either stop if the deck ran out
(`if not self._cards: break`) or pop the top card onto the hand. -/
def dealRound : List (List Card) → List Card → List (List Card) × List Card
  | [], cs => ([], cs)
  | h :: hs, cs =>
    if cs.isEmpty then (h :: hs, cs)
    else
      match cs.getLast? with
      | none => (h :: hs, cs)
      | some c =>
        let r := dealRound hs cs.dropLast
        ((h ++ [c]) :: r.1, r.2)

/-- `Deck.deal`'s outer loop `for _ in range(cards_each)`. -/
def dealRounds : Nat → List (List Card) → List Card → List (List Card) × List Card
  | 0, hands, cs => (hands, cs)
  | k + 1, hands, cs =>
    let r := dealRound hands cs
    dealRounds k r.1 r.2

/-- `Deck.deal`: all three raises occur before the dealing loop, so errors
carry the unmodified deck. -/
def Deck.deal (d : Deck) (numHands cardsEach : Int) (strict : Bool) :
    Except (PyErr × Deck) (List (List Card) × Deck) :=
  if numHands < 1 then
    .error (.valueError .numHandsAtLeastOne, d)
  else if cardsEach < 0 then
    .error (.valueError .cardsEachPositive, d)
  else if strict = true ∧ (d.cards.length : Int) < numHands * cardsEach then
    .error (.valueError .notEnoughToDeal, d)
  else
    let hands := List.replicate numHands.toNat ([] : List Card)
    let r := dealRounds cardsEach.toNat hands d.cards
    .ok (r.1, { d with cards := r.2 })

/-- Clamp one endpoint of a Python slice to a valid index of a list of
length `len`: negative indexes count from the end and everything is clamped
into `[0, len]`. -/
def pySliceIdx (len : Nat) (i : Int) : Nat :=
  if i < 0 then ((len : Int) + i).toNat else min i.toNat len

/-- Python `l[a:b]`. -/
def pySlice (l : List Card) (a b : Int) : List Card :=
  (l.take (pySliceIdx l.length b)).drop (pySliceIdx l.length a)

/-- Python `l[a:]`. -/
def pySliceFrom (l : List Card) (a : Int) : List Card :=
  l.drop (pySliceIdx l.length a)

/-- Python `l[:b]`. -/
def pySliceTo (l : List Card) (b : Int) : List Card :=
  l.take (pySliceIdx l.length b)

/-- Python 3 `round(x)` on the idealized real value: round half to even
(banker's rounding), the rounding the interpreter applies to the float
products in `Deck.split`. -/
def pyRound (q : ℚ) : ℤ :=
  if Int.fract q < 1 / 2 then ⌊q⌋
  else if 1 / 2 < Int.fract q then ⌊q⌋ + 1
  else if ⌊q⌋ % 2 = 0 then ⌊q⌋ else ⌊q⌋ + 1

/-- `Deck.split`: the slice boundaries `round(i*k)` are computed from
`k = len(self._cards) / n` (Python float division, idealized here by exact
rational division; `int(k)` truncates, which is `⌊k⌋` since `k ≥ 0`).  The
method builds the sub-decks out of slices of `self._cards` and returns
them; the second component of the `ok` result is the state of `self` when
the method returns (no statement in the method assigns to `self._cards`). -/
def Deck.split (d : Deck) (n : Int) (strict : Bool) :
    Except PyErr (List Deck × Deck) :=
  if n < 2 ∨ (d.cards.length : Int) < n then
    .error (.valueError .nAtLeastTwo)
  else
    let k : ℚ := (d.cards.length : ℚ) / (n : ℚ)
    let k : ℚ := if strict then ((⌊k⌋ : ℤ) : ℚ) else k
    let decks := (List.range n.toNat).map fun i : ℕ =>
      Deck.fromCards
        (pySlice d.cards (pyRound ((i : ℚ) * k)) (pyRound (((i : ℚ) + 1) * k)))
        d.includeJokers (some d.rankValues) d.suitOrder true
    .ok (decks, d)

/-- An argument to `Deck.add`: a single `Card` or an iterable of cards
(the source's runtime type test `isinstance(item, Card)` /
`isinstance(item, Iterable)` becomes this tagged union; the `TypeError`
branches guard shapes this typed model cannot express). -/
inductive AddItem
  | single (c : Card)
  | group (cs : List Card)
  deriving DecidableEq, Repr

/-- The flattening loop at the top of `Deck.add`. -/
def flattenItems : List AddItem → List Card
  | [] => []
  | .single c :: rest => c :: flattenItems rest
  | .group cs :: rest => cs ++ flattenItems rest

/-- The two deterministic `position` literals of `Deck.add`
(`position='random'` inserts at fresh uniform random indexes and is outside
this model). -/
inductive AddPosition
  | top
  | bottom
  deriving DecidableEq, Repr

/-- `Deck.add` for the deterministic positions.  The `'bottom'` branch
executes both `self._cards.extend(flat_cards)` and then
`self._cards = flat_cards[::-1] + self._cards`, exactly as in the source;
the `'top'` branch only extends. -/
def Deck.add (d : Deck) (items : List AddItem) (pos : AddPosition) : Deck :=
  let flat := flattenItems items
  match pos with
  | .bottom => { d with cards := flat.reverse ++ (d.cards ++ flat) }
  | .top => { d with cards := d.cards ++ flat }

/-- `Deck._reverse_index`: normalize a negative index, then mirror it into
the internal (bottom-to-top) orientation. -/
def reverseIndex (len : Nat) (i : Int) : Int :=
  let i := if i < 0 then i + len else i
  (len : Int) - 1 - i

/-- Python `l[i]` for a single integer index: negative indexes count from
the end; out-of-range access raises `IndexError`. -/
def pyListGet (l : List Card) (i : Int) : Except PyErr Card :=
  let j := if i < 0 then i + l.length else i
  if h : 0 ≤ j ∧ j.toNat < l.length then .ok (l.get ⟨j.toNat, h.2⟩)
  else .error .indexError

/-- The loop `for i in range(start, end, -1)` of `Deck.index`, iterated
over its (precomputed) trip count; `i` is the current internal index. -/
def indexFrom (cs : List Card) (c : Card) : Nat → Int → Except PyErr Int
  | 0, _ => .error (.valueError .cardNotInDeck)
  | k + 1, i =>
    match pyListGet cs i with
    | .error e => .error e
    | .ok x => if x = c then .ok i else indexFrom cs c k (i - 1)

/-- `Deck.index`: converts the logical `start`/`end` to internal indexes
with `_reverse_index` and scans downward; note the source returns the bare
loop variable `i` (an internal index). -/
def Deck.index (d : Deck) (c : Card) (start : Int) (stop : Option Int) :
    Except PyErr Int :=
  let e0 : Int := stop.getD d.cards.length
  let s := reverseIndex d.cards.length start
  let e := reverseIndex d.cards.length e0
  indexFrom d.cards c (s - e).toNat s

/-- `Deck.__lshift__`: `n % len(self._cards)` raises `ZeroDivisionError`
on an empty deck; otherwise the new list is
`self._cards[-n:] + self._cards[:-n]` with the reduced `n`. -/
def Deck.lshift (d : Deck) (n : Int) : Except PyErr Deck :=
  if d.cards.length = 0 then .error .zeroDivisionError
  else
    let m := n.emod d.cards.length
    .ok { d with cards := pySliceFrom d.cards (-m) ++ pySliceTo d.cards (-m) }

/-- `Deck.__rshift__`: `n % len(self._cards)` raises `ZeroDivisionError`
on an empty deck; otherwise the new list is
`self._cards[n:] + self._cards[:n]` with the reduced `n`. -/
def Deck.rshift (d : Deck) (n : Int) : Except PyErr Deck :=
  if d.cards.length = 0 then .error .zeroDivisionError
  else
    let m := n.emod d.cards.length
    .ok { d with cards := pySliceFrom d.cards m ++ pySliceTo d.cards m }

/-! Named card constants, as in `StandardCards` of `card.py`. -/

/-- `StandardCards.ACE_SPADES`. -/
def ACE_SPADES : Card := ⟨.ace, .spades⟩

/-- `StandardCards.KING_SPADES`. -/
def KING_SPADES : Card := ⟨.king, .spades⟩

/-- `StandardCards.QUEEN_SPADES`. -/
def QUEEN_SPADES : Card := ⟨.queen, .spades⟩

/-- `StandardCards.JACK_SPADES`. -/
def JACK_SPADES : Card := ⟨.jack, .spades⟩

/-- `StandardCards.TEN_SPADES`. -/
def TEN_SPADES : Card := ⟨.ten, .spades⟩

/-- `StandardCards.TWO_HEARTS`. -/
def TWO_HEARTS : Card := ⟨.two, .hearts⟩

/-- `Deck.from_cards(cards)` with every other parameter at its default: a
deck holding exactly `cs` top-to-bottom under the default rules.  Used to
build the concrete decks of the claim instances. -/
def testDeck (cs : List Card) : Deck :=
  Deck.fromCards cs false none (some ENGLISH_ALPH_ORDER) false

/-! ## Claim theorems -/

/-- C1: evaluation of the claim's scenario.  A fresh
`Deck(include_jokers=False, shuffle=False, empty=False)` never returns
any card from `draw(1)`: the constructor assigns the return value of
`_build_cards()` to `self._cards`, and that method has no `return`
statement, so the fresh deck's `_cards` is `None` and `draw(1)` raises
`TypeError` at `len(self._cards)` — not the claimed one-element list
holding the Ace of Hearts with 51 cards remaining. -/
theorem C1_fresh_deck_draw_type_error :
    initCardsValue false = none ∧
    drawFromRef (initCardsValue false) 1 true = .error .typeError :=
  ⟨rfl, rfl⟩

/-- C2: evaluation at the failing input.  On the one-card deck A♠, adding
the single card 2♥ with `position='bottom'` yields the top-to-bottom
sequence 2♥, A♠, 2♥ of length 3: the `'bottom'` branch both extends the
top with the flattened items and prepends their reversal at the bottom,
so the added cards appear twice and the existing top changes. -/
theorem C2_add_bottom_eval :
    ((testDeck [ACE_SPADES]).add [.single TWO_HEARTS] .bottom).seq
        = [TWO_HEARTS, ACE_SPADES, TWO_HEARTS] ∧
    ((testDeck [ACE_SPADES]).add [.single TWO_HEARTS] .bottom).cards.length = 3 := by
  decide

/-- C3: evaluation at the failing input.  Copying the deck whose
top-to-bottom sequence is A♠, K♠ gives a deck whose sequence is K♠, A♠:
`copy` hands the internal bottom-to-top list to `from_cards`, which reads
its argument as top-to-bottom and reverses it again, so the copy comes
out reversed (the rule fields are copied correctly). -/
theorem C3_copy_reverses_eval :
    ((testDeck [ACE_SPADES, KING_SPADES]).copy false).seq
        = [KING_SPADES, ACE_SPADES] ∧
    ((testDeck [ACE_SPADES, KING_SPADES]).copy false).seq
        ≠ (testDeck [ACE_SPADES, KING_SPADES]).seq ∧
    ((testDeck [ACE_SPADES, KING_SPADES]).copy false).rankValues
        = (testDeck [ACE_SPADES, KING_SPADES]).rankValues ∧
    ((testDeck [ACE_SPADES, KING_SPADES]).copy false).suitOrder
        = (testDeck [ACE_SPADES, KING_SPADES]).suitOrder ∧
    ((testDeck [ACE_SPADES, KING_SPADES]).copy false).includeJokers
        = (testDeck [ACE_SPADES, KING_SPADES]).includeJokers := by
  decide

/-- C6: evaluation at the failing input.  On the deck whose top-to-bottom
sequence is A♠, K♠, the first (and only) occurrence of A♠ is at logical
index 0, but `index(A♠)` returns 1: the scan is performed over internal
indexes and the source returns the bare loop variable without converting
it back to the top-based orientation. -/
theorem C6_index_internal_eval :
    (testDeck [ACE_SPADES, KING_SPADES]).index ACE_SPADES 0 none = .ok 1 ∧
    (testDeck [ACE_SPADES, KING_SPADES]).seq = [ACE_SPADES, KING_SPADES] ∧
    ACE_SPADES ≠ KING_SPADES :=
  ⟨rfl, by decide, by decide⟩

/-- C9: evaluation at the failing input.  On an empty deck both `a << 1`
and `a >> 1` reach `n % len(self._cards)` with a zero modulus and raise
`ZeroDivisionError`, not the defined `InvalidArgument`-style `ValueError`
the claim requires. -/
theorem C9_empty_rotation_eval :
    (Deck.init false none (some ENGLISH_ALPH_ORDER) true).lshift 1
        = .error .zeroDivisionError ∧
    (Deck.init false none (some ENGLISH_ALPH_ORDER) true).rshift 1
        = .error .zeroDivisionError :=
  ⟨rfl, rfl⟩

/-- Each rank's entry in `DEFAULT_RANK_VALUES` is nonzero (the default
values are 2 through 15). -/
theorem default_lookup_ne_zero : ∀ r : Rank,
    ((DEFAULT_RANK_VALUES.lookup r).getD 0 : Int) ≠ 0 := by
  intro r
  cases r <;> decide

/-- C10: constructing a deck with an explicitly supplied empty rank-value
mapping is identical to passing none at all (the constructor's
`rank_values or DEFAULT_RANK_VALUES` replaces any falsy argument), so
`value(card)` returns the standard default value of the card's rank,
which is never 0. -/
theorem C10_empty_rank_values_default (ij e : Bool) (so : Option (List Suit))
    (c : Card) :
    Deck.init ij (some []) so e = Deck.init ij none so e ∧
    (Deck.init ij (some []) so e).value c
        = (DEFAULT_RANK_VALUES.lookup c.rank).getD 0 ∧
    (Deck.init ij (some []) so e).value c ≠ 0 := by
  have hval : (Deck.init ij (some []) so e).value c
      = (DEFAULT_RANK_VALUES.lookup c.rank).getD 0 := by
    show (match DEFAULT_RANK_VALUES.lookup c.rank with
      | some v => v | none => 0) = (DEFAULT_RANK_VALUES.lookup c.rank).getD 0
    cases DEFAULT_RANK_VALUES.lookup c.rank <;> rfl
  exact ⟨rfl, hval, hval ▸ default_lookup_ne_zero c.rank⟩

/-- C8: strict-mode failure is atomic.  A strict `draw` asked for more
cards than remain, and a strict `deal` whose total requirement exceeds the
deck (with valid hand counts), both fail with the insufficient-cards
`ValueError`, and the deck state carried at the raise point is exactly the
input state: in the source both raises precede any mutation. -/
theorem C8_strict_failure_atomic (d : Deck) (n numHands cardsEach : Int)
    (hn : (d.cards.length : Int) < n)
    (hh : 1 ≤ numHands) (hc : 0 ≤ cardsEach)
    (ht : (d.cards.length : Int) < numHands * cardsEach) :
    d.draw n true = .error (.valueError .notEnoughToDraw, d) ∧
    d.deal numHands cardsEach true = .error (.valueError .notEnoughToDeal, d) := by
  constructor
  · simp only [Deck.draw]
    rw [if_neg (by omega : ¬ n < 0), if_pos ⟨by trivial, hn⟩]
  · simp only [Deck.deal]
    rw [if_neg (by omega : ¬ numHands < 1), if_neg (by omega : ¬ cardsEach < 0),
      if_pos ⟨by trivial, ht⟩]

/-- Witness for C8 at a concrete input: the empty deck with `n = 1` and a
one-hand, one-card deal. -/
theorem C8_strict_failure_atomic_witness :
    (((testDeck []).cards.length : Int) < 1 ∧ (1 : Int) ≤ 1 ∧ (0 : Int) ≤ 1 ∧
      ((testDeck []).cards.length : Int) < 1 * 1) ∧
    ((testDeck []).draw 1 true = .error (.valueError .notEnoughToDraw, testDeck []) ∧
      (testDeck []).deal 1 1 true
        = .error (.valueError .notEnoughToDeal, testDeck [])) :=
  ⟨⟨by decide, by decide, by decide, by decide⟩,
    C8_strict_failure_atomic (testDeck []) 1 1 1 (by decide) (by decide)
      (by decide) (by decide)⟩

/-- C4 counterexample: on the two-card deck A♠, K♠, after
`split(2, strict=false)` returns, the original deck still holds its two
cards, where the claim says it is left with none. -/
theorem C4_split_consumes_counterexample :
    ((testDeck [ACE_SPADES, KING_SPADES]).split 2 false).map
        (fun p => p.2.cards.length) = .ok 2 := by
  rfl

/-- C4 amended: `split` never mutates the original deck.  For any valid
`n` (in either strict or non-strict mode) it returns the sub-decks
together with the original deck's state, which is exactly the input
state: no statement of the method assigns to `self._cards`. -/
theorem C4_split_leaves_deck_unchanged (d : Deck) (n : Int) (strict : Bool)
    (h2 : 2 ≤ n) (hn : n ≤ (d.cards.length : Int)) :
    ∃ decks, d.split n strict = .ok (decks, d) := by
  simp only [Deck.split]
  rw [if_neg (by omega : ¬ (n < 2 ∨ (d.cards.length : Int) < n))]
  exact ⟨_, rfl⟩

/-- Witness for C4's amended theorem at the two-card deck with `n = 2`. -/
theorem C4_split_leaves_deck_unchanged_witness :
    ((2 : Int) ≤ 2 ∧ (2 : Int) ≤ ((testDeck [ACE_SPADES, KING_SPADES]).cards.length : Int)) ∧
    ∃ decks, (testDeck [ACE_SPADES, KING_SPADES]).split 2 false
      = .ok (decks, testDeck [ACE_SPADES, KING_SPADES]) :=
  ⟨⟨by decide, by decide⟩,
    C4_split_leaves_deck_unchanged (testDeck [ACE_SPADES, KING_SPADES]) 2 false
      (by decide) (by decide)⟩

/-- Popping the top `k` cards off an internal (bottom-to-top) list takes
the first `k` cards of the top-to-bottom view and keeps the first
`length - k` cards of the internal list. -/
theorem popLoop_spec : ∀ (k : ℕ) (cs : List Card), k ≤ cs.length →
    popLoop k cs = (cs.reverse.take k, cs.take (cs.length - k)) := by
  intro k
  induction k with
  | zero =>
    intro cs _
    simp [popLoop]
  | succ k ih =>
    intro cs h
    rcases List.eq_nil_or_concat cs with rfl | ⟨L, b, rfl⟩
    · simp at h
    · rw [List.concat_eq_append] at *
      have hk : k ≤ L.length := by
        simpa using h
      simp only [popLoop, List.getLast?_concat, List.dropLast_concat,
        ih L hk]
      rw [Prod.mk.injEq]
      constructor
      · simp [List.reverse_append]
      · have hlen : L.length + 1 - (k + 1) = L.length - k := by omega
        simp only [List.length_append, List.length_cons, List.length_nil,
          Nat.add_zero, hlen]
        rw [List.take_append_of_le_length (by omega)]

/-- C7 counterexample: on the two-card deck A♠, K♠, drawing both cards and
adding the drawn list back with `position='top'` yields the sequence
K♠, A♠ — the drawn block comes back reversed, not the original order. -/
theorem C7_draw_addTop_counterexample :
    ((testDeck [ACE_SPADES, KING_SPADES]).draw 2 true).map
        (fun p => (p.2.add [.group p.1] .top).seq) = .ok [KING_SPADES, ACE_SPADES] ∧
    [KING_SPADES, ACE_SPADES] ≠ (testDeck [ACE_SPADES, KING_SPADES]).seq :=
  ⟨rfl, by decide⟩

/-- C7 amended: for `k ≤ len(D)`, `draw(k)` returns the top `k` cards
(top-most first) and `add(drawn, position='top')` then produces the deck
whose top-to-bottom sequence is the REVERSE of the drawn block followed by
the remainder (`add` pushes the items one by one, so the last drawn card
ends on top); the original sequence is therefore restored exactly when
`k ≤ 1`, not in general. -/
theorem C7_draw_addTop_reverses (d : Deck) (k : ℕ) (h : k ≤ d.cards.length) :
    (d.draw k true).map (fun p => ((p.2.add [.group p.1] .top).seq, p.1))
        = .ok ((d.seq.take k).reverse ++ d.seq.drop k, d.seq.take k) ∧
    (k ≤ 1 → (d.seq.take k).reverse ++ d.seq.drop k = d.seq) := by
  constructor
  · have h0 : ¬ (k : Int) < 0 := by omega
    have h1 : ¬ (True ∧ (d.cards.length : Int) < (k : Int)) := by
      rintro ⟨-, hlt⟩
      omega
    simp only [Deck.draw, if_neg h0, if_neg h1, Int.toNat_natCast,
      min_eq_left h, popLoop_spec k d.cards h, Except.map, Deck.add,
      flattenItems, Deck.seq, List.append_nil]
    simp only [Except.ok.injEq, Prod.mk.injEq]
    refine ⟨?_, trivial⟩
    rw [List.reverse_append]
    congr 1
    rw [List.reverse_take, Nat.sub_sub_self h]
  · intro hk
    match k, hk with
    | 0, _ => simp
    | 1, _ =>
      cases hs : d.seq with
      | nil => simp
      | cons a t => simp

/-- Witness for C7's amended theorem at the two-card deck with `k = 2`. -/
theorem C7_draw_addTop_reverses_witness :
    (2 ≤ (testDeck [ACE_SPADES, KING_SPADES]).cards.length) ∧
    (((testDeck [ACE_SPADES, KING_SPADES]).draw 2 true).map
        (fun p => ((p.2.add [.group p.1] .top).seq, p.1))
      = .ok (((testDeck [ACE_SPADES, KING_SPADES]).seq.take 2).reverse
          ++ (testDeck [ACE_SPADES, KING_SPADES]).seq.drop 2,
        (testDeck [ACE_SPADES, KING_SPADES]).seq.take 2) ∧
    (2 ≤ 1 → ((testDeck [ACE_SPADES, KING_SPADES]).seq.take 2).reverse
          ++ (testDeck [ACE_SPADES, KING_SPADES]).seq.drop 2
        = (testDeck [ACE_SPADES, KING_SPADES]).seq)) :=
  ⟨by decide,
    C7_draw_addTop_reverses (testDeck [ACE_SPADES, KING_SPADES]) 2 (by decide)⟩

/-- `pyRound` of an integer is that integer. -/
theorem pyRound_intCast (m : ℤ) : pyRound (m : ℚ) = m := by
  unfold pyRound
  rw [Int.fract_intCast, Int.floor_intCast]
  norm_num

/-- `pyRound q` is `⌊q⌋` or `⌊q⌋ + 1`. -/
theorem pyRound_bounds (q : ℚ) : ⌊q⌋ ≤ pyRound q ∧ pyRound q ≤ ⌊q⌋ + 1 := by
  unfold pyRound
  split_ifs <;> omega

/-- `pyRound` is monotone. -/
theorem pyRound_mono {x y : ℚ} (h : x ≤ y) : pyRound x ≤ pyRound y := by
  rcases le_or_lt (⌊x⌋ + 1) ⌊y⌋ with h1 | h1
  · exact le_trans (pyRound_bounds x).2 (le_trans h1 (pyRound_bounds y).1)
  · have hfl : ⌊x⌋ = ⌊y⌋ := le_antisymm (Int.floor_le_floor h) (by omega)
    have hfr : Int.fract x ≤ Int.fract y := by
      have e1 : Int.fract x = x - (⌊x⌋ : ℚ) := rfl
      have e2 : Int.fract y = y - (⌊y⌋ : ℚ) := rfl
      rw [e1, e2, hfl]
      have : ((⌊y⌋ : ℚ)) ≤ (⌊y⌋ : ℚ) := le_refl _
      linarith
    unfold pyRound
    rw [hfl]
    split_ifs <;> first | omega | linarith

/-- A slice endpoint that is already a valid index is returned as is. -/
theorem pySliceIdx_of_nonneg_le {len : ℕ} {a : ℤ} (h0 : 0 ≤ a)
    (hl : a ≤ (len : ℤ)) : pySliceIdx len a = a.toNat := by
  unfold pySliceIdx
  rw [if_neg (by omega)]
  exact min_eq_left (by omega)

/-- Concatenating the consecutive slices of a list cut at a monotone
boundary function reproduces the list's prefix up to the last boundary. -/
theorem flatten_boundary_slices {α : Type} (l : List α) (b : ℕ → ℕ)
    (hmono : ∀ i, b i ≤ b (i + 1)) (h0 : b 0 = 0) :
    ∀ m, (((List.range m).map fun i => (l.take (b (i + 1))).drop (b i)).flatten)
      = l.take (b m) := by
  intro m
  induction m with
  | zero => simp [h0]
  | succ m ih =>
    rw [List.range_succ, List.map_append, List.flatten_append, ih]
    simp only [List.map_cons, List.map_nil, List.flatten_cons,
      List.flatten_nil, List.append_nil]
    rw [show l.take (b m) = (l.take (b (m + 1))).take (b m) by
        rw [List.take_take, min_eq_left (hmono m)],
      List.take_append_drop]

/-- C5 counterexample.  On the four-card deck A♠,K♠,Q♠,J♠ (top to bottom),
`split(2, strict=false)` returns sub-decks whose top-to-bottom sequences
are Q♠,J♠ and A♠,K♠: concatenating them in returned order gives
Q♠,J♠,A♠,K♠, not the original sequence (the first returned sub-deck holds
the BOTTOM cards).  And on the five-card deck A♠,K♠,Q♠,J♠,10♠ the group
sizes are 2 then 3, not floor(5/2)+1 = 3 for the first group as claimed. -/
theorem C5_split_counterexample :
    ((testDeck [ACE_SPADES, KING_SPADES, QUEEN_SPADES, JACK_SPADES]).split 2
        false).map (fun p => (p.1.map Deck.seq).flatten)
      = .ok [QUEEN_SPADES, JACK_SPADES, ACE_SPADES, KING_SPADES] ∧
    ([QUEEN_SPADES, JACK_SPADES, ACE_SPADES, KING_SPADES] : List Card)
      ≠ (testDeck [ACE_SPADES, KING_SPADES, QUEEN_SPADES, JACK_SPADES]).seq ∧
    ((testDeck [ACE_SPADES, KING_SPADES, QUEEN_SPADES, JACK_SPADES, TEN_SPADES]).split 2
        false).map (fun p => p.1.map fun dk => dk.cards.length)
      = .ok [2, 3] := by
  refine ⟨?_, by decide, ?_⟩
  · simp only [Deck.split]
    rw [if_neg (by decide)]
    rw [show ((2 : ℤ)).toNat = 2 from rfl, show List.range 2 = [0, 1] from rfl]
    simp only [Bool.false_eq_true, if_false, List.map_cons, List.map_nil]
    norm_num [pyRound, Int.fract, testDeck, Deck.fromCards, Deck.init,
      pySlice, pySliceIdx, Deck.seq, Except.map]
    decide
  · simp only [Deck.split]
    rw [if_neg (by decide)]
    rw [show ((2 : ℤ)).toNat = 2 from rfl, show List.range 2 = [0, 1] from rfl]
    simp only [Bool.false_eq_true, if_false, List.map_cons, List.map_nil]
    norm_num [pyRound, Int.fract, testDeck, Deck.fromCards, Deck.init,
      pySlice, pySliceIdx, Except.map]
    decide

/-- C5 amended: for `2 ≤ n ≤ len(D)`, non-strict `split` returns `n`
sub-decks cut at the rounded boundaries `round(i * len(D) / n)` of the
internal (bottom-to-top) list, so they partition D contiguously from the
bottom up: concatenating the sub-decks' top-to-bottom sequences in
REVERSE return order reproduces D's top-to-bottom sequence (and `D`
itself is returned unchanged). -/
theorem C5_split_partitions_from_bottom (d : Deck) (n : Int)
    (h2 : 2 ≤ n) (hn : n ≤ (d.cards.length : Int)) :
    ∃ decks, d.split n false = .ok (decks, d) ∧ decks.length = n.toNat ∧
      (((decks.map Deck.seq).reverse).flatten) = d.seq := by
  have hnpos : (0 : ℤ) < n := by omega
  have hnq : ((n : ℚ)) ≠ 0 := by
    exact_mod_cast (by omega : n ≠ 0)
  simp only [Deck.split, Bool.false_eq_true, if_false]
  rw [if_neg (by omega : ¬ (n < 2 ∨ (d.cards.length : Int) < n))]
  set len := d.cards.length with hlen
  set k : ℚ := (len : ℚ) / (n : ℚ) with hkdef
  have hk0 : 0 ≤ k := by
    rw [hkdef]
    positivity
  -- the boundary function of the slices, in ℕ
  set B : ℕ → ℕ := fun i => (pyRound ((i : ℚ) * k)).toNat with hBdef
  have hround0 : pyRound ((0 : ℚ) * k) = 0 := by
    rw [zero_mul]
    exact_mod_cast pyRound_intCast 0
  have hroundNonneg : ∀ i : ℕ, 0 ≤ pyRound ((i : ℚ) * k) := by
    intro i
    have : ((0 : ℚ) * k) ≤ (i : ℚ) * k :=
      mul_le_mul_of_nonneg_right (by positivity) hk0
    have := pyRound_mono this
    omega
  have hroundTop : pyRound ((n.toNat : ℚ) * k) = (len : ℤ) := by
    have hcast : ((n.toNat : ℚ)) = (n : ℚ) :=
      mod_cast congrArg (fun z : ℤ => (z : ℚ)) (Int.toNat_of_nonneg (by omega))
    have : ((n.toNat : ℚ)) * k = (len : ℚ) := by
      rw [hcast, hkdef]
      field_simp
    rw [this]
    have : ((len : ℚ)) = (((len : ℤ) : ℚ)) := by push_cast; ring
    rw [this]
    exact pyRound_intCast len
  have hroundLe : ∀ i : ℕ, i ≤ n.toNat → pyRound ((i : ℚ) * k) ≤ (len : ℤ) := by
    intro i hi
    rw [← hroundTop]
    apply pyRound_mono
    apply mul_le_mul_of_nonneg_right _ hk0
    exact_mod_cast hi
  have hmono : ∀ i, B i ≤ B (i + 1) := by
    intro i
    apply Int.toNat_le_toNat
    apply pyRound_mono
    apply mul_le_mul_of_nonneg_right _ hk0
    push_cast
    linarith
  have hB0 : B 0 = 0 := by
    simp only [hBdef, Nat.cast_zero, hround0, Int.toNat_zero]
  have hBtop : B n.toNat = len := by
    simp only [hBdef, hroundTop, Int.toNat_natCast]
  refine ⟨_, rfl, by rw [List.length_map, List.length_range], ?_⟩
  have hslice : ∀ i ∈ List.range n.toNat,
      Deck.seq (Deck.fromCards
          (pySlice d.cards (pyRound ((i : ℚ) * k)) (pyRound (((i : ℚ) + 1) * k)))
          d.includeJokers (some d.rankValues) d.suitOrder true)
        = List.reverse ((d.cards.take (B (i + 1))).drop (B i)) := by
    intro i hi
    have hi' : i < n.toNat := List.mem_range.mp hi
    have hcast1 : (((i + 1 : ℕ)) : ℚ) = ((i : ℚ) + 1) := by push_cast; ring
    have e1 : pySliceIdx len (pyRound ((i : ℚ) * k)) = B i :=
      pySliceIdx_of_nonneg_le (hroundNonneg i) (hroundLe i (by omega))
    have e2 : pySliceIdx len (pyRound (((i : ℚ) + 1) * k)) = B (i + 1) := by
      rw [← hcast1]
      exact pySliceIdx_of_nonneg_le (hroundNonneg (i + 1)) (hroundLe (i + 1) (by omega))
    simp only [Deck.seq, Deck.fromCards, Deck.init, pySlice, ← hlen, e1, e2,
      if_true]
  have h1 : ((List.range n.toNat).map (fun i : ℕ =>
        Deck.fromCards
          (pySlice d.cards (pyRound ((i : ℚ) * k)) (pyRound (((i : ℚ) + 1) * k)))
          d.includeJokers (some d.rankValues) d.suitOrder true)).map Deck.seq
      = (List.range n.toNat).map
          (fun i => List.reverse ((d.cards.take (B (i + 1))).drop (B i))) := by
    rw [List.map_map]
    exact List.map_congr_left hslice
  rw [h1]
  rw [show ((List.range n.toNat).map
        fun i => List.reverse ((d.cards.take (B (i + 1))).drop (B i)))
      = ((List.range n.toNat).map
          fun i => ((d.cards.take (B (i + 1))).drop (B i))).map List.reverse from
    (List.map_map List.reverse _ _).symm]
  rw [← List.reverse_flatten]
  rw [flatten_boundary_slices d.cards B hmono hB0 n.toNat, hBtop, hlen,
    List.take_length]
  rfl

/-- Witness for C5's amended theorem at the four-card deck with `n = 2`. -/
theorem C5_split_partitions_from_bottom_witness :
    ((2 : Int) ≤ 2 ∧
      (2 : Int) ≤ ((testDeck [ACE_SPADES, KING_SPADES, QUEEN_SPADES,
        JACK_SPADES]).cards.length : Int)) ∧
    ∃ decks, (testDeck [ACE_SPADES, KING_SPADES, QUEEN_SPADES,
        JACK_SPADES]).split 2 false
      = .ok (decks, testDeck [ACE_SPADES, KING_SPADES, QUEEN_SPADES,
          JACK_SPADES]) ∧
      decks.length = (2 : Int).toNat ∧
      (((decks.map Deck.seq).reverse).flatten)
        = (testDeck [ACE_SPADES, KING_SPADES, QUEEN_SPADES, JACK_SPADES]).seq :=
  ⟨⟨by decide, by decide⟩,
    C5_split_partitions_from_bottom
      (testDeck [ACE_SPADES, KING_SPADES, QUEEN_SPADES, JACK_SPADES]) 2
      (by decide) (by decide)⟩

/-- Witness for C10 at a concrete instantiation: a non-empty deck built
with an explicit empty rank-value mapping, evaluated at the Ace of
Spades. -/
theorem C10_empty_rank_values_default_witness :
    Deck.init false (some []) (some ENGLISH_ALPH_ORDER) false
        = Deck.init false none (some ENGLISH_ALPH_ORDER) false ∧
    (Deck.init false (some []) (some ENGLISH_ALPH_ORDER) false).value ACE_SPADES
        = (DEFAULT_RANK_VALUES.lookup ACE_SPADES.rank).getD 0 ∧
    (Deck.init false (some []) (some ENGLISH_ALPH_ORDER) false).value ACE_SPADES
        ≠ 0 :=
  C10_empty_rank_values_default false false (some ENGLISH_ALPH_ORDER) ACE_SPADES

end Cardlib
